import Mathlib

/-
Verification development for the roji reverse proxy (Go).

The definitions below are a shallow embedding of the Go sources:
  - config/labels.go        (label parsing)
  - docker/client.go        (container inspection, port and hostname detection)
  - proxy/handler.go        (routing table and the reverse-proxy director)
  - certgen/generator.go    (certificate generation and persistence)
  - cmd main event handling (handleStartEvent)

Go maps are modelled as association lists with unique keys (insertion
replaces an existing binding); Go map iteration corresponds to list order.
Machine integers are modelled as Int, strings as Lean String (the code only
manipulates ASCII hostnames, ports and paths).
-/

namespace Roji

/-! ## Go standard-library string helpers -/

/-- Model of `unicode.IsSpace` restricted to the characters Go's
`strings.TrimSpace` actually trims for label values:
space, tab, newline, vertical tab, form feed, carriage return, NEL, NBSP. -/
def goIsSpace (c : Char) : Bool :=
  c = ' ' || c = '\t' || c = '\n' || c = '\x0b' || c = '\x0c' || c = '\r' ||
  c = '\x85' || c = '\xa0'

/-- Model of Go `strings.TrimSpace`. -/
def goTrimSpace (s : String) : String :=
  ⟨((s.toList.dropWhile goIsSpace).reverse.dropWhile goIsSpace).reverse⟩

/-- Numeric value of a list of decimal digits. -/
def digitsToNat (ds : List Char) : Nat :=
  ds.foldl (fun n c => n * 10 + (c.toNat - '0'.toNat)) 0

/-- Model of Go `strconv.Atoi`: an optional sign followed by at least one
decimal digit; anything else is a parse error (`none`). -/
def goAtoi (s : String) : Option Int :=
  match s.toList with
  | [] => none
  | c :: cs =>
    let signAndDigits : Bool × List Char :=
      if c = '-' then (true, cs)
      else if c = '+' then (false, cs)
      else (false, c :: cs)
    let neg := signAndDigits.1
    let ds := signAndDigits.2
    if ds.isEmpty then none
    else if ds.all (fun d => d.isDigit) then
      some (if neg then -(digitsToNat ds : Int) else (digitsToNat ds : Int))
    else none

/-- ASCII lowercasing of one character (the hostnames the code lowercases
are DNS names, for which Go's `strings.ToLower` coincides with the ASCII
mapping). -/
def goToLowerChar (c : Char) : Char :=
  if 'A' ≤ c ∧ c ≤ 'Z' then Char.ofNat (c.toNat + 32) else c

/-- Model of Go `strings.ToLower` on ASCII strings. -/
def goToLower (s : String) : String :=
  ⟨s.toList.map goToLowerChar⟩

/-- Model of Go `strings.HasPrefix s pre`. -/
def goHasPrefix (s pre : String) : Bool :=
  pre.toList.isPrefixOf s.toList

/-- Model of Go `strings.TrimPrefix`. -/
def goTrimPrefixOf (s pre : String) : String :=
  if goHasPrefix s pre then ⟨s.toList.drop pre.toList.length⟩ else s

/-- Index of the last `:` in a character list (model of
`strings.LastIndex(s, ":")`; `none` when absent). -/
def lastColonIdx : List Char → Option Nat
  | [] => none
  | c :: rest =>
    match lastColonIdx rest with
    | some i => some (i + 1)
    | none => if c = ':' then some 0 else none

/-! ## String-keyed map model (Go `map[string]V`) -/

/-- Lookup in a string-keyed association list (Go map read, `v, ok` form). -/
def mapLookup {α : Type} : List (String × α) → String → Option α
  | [], _ => none
  | (k', v) :: rest, k => if k' = k then some v else mapLookup rest k

/-- Go map read with the zero value as default (`m[k]`). -/
def lookupD {α : Type} (m : List (String × α)) (k : String) (d : α) : α :=
  (mapLookup m k).getD d

/-- Go map write `m[k] = v`: replaces an existing binding, else appends. -/
def mapInsert {α : Type} : List (String × α) → String → α → List (String × α)
  | [], k, v => [(k, v)]
  | (k', v') :: rest, k, v =>
    if k' = k then (k, v) :: rest else (k', v') :: mapInsert rest k v

/-- Go `m[k]++` on a counter map. -/
def bumpCount (m : List (String × Nat)) (k : String) : List (String × Nat) :=
  mapInsert m k (lookupD m k 0 + 1)

/-! ## config/labels.go -/

/-- RouteConfig from config/labels.go: the validated label overrides. -/
structure RouteConfig where
  host : String
  port : Int
  pathPrefix : String
deriving DecidableEq, Repr

/-- ParseLabels from config/labels.go: extracts `roji.host`, `roji.port`
and `roji.path` from the container labels.  The host and path values are
trimmed of surrounding whitespace; the port is trimmed and parsed with
`strconv.Atoi`, staying 0 on parse failure. -/
def ParseLabels (labels : List (String × String)) : RouteConfig :=
  let host := match mapLookup labels "roji.host" with
              | some h => goTrimSpace h
              | none => ""
  let port := match mapLookup labels "roji.port" with
              | some p =>
                  match goAtoi (goTrimSpace p) with
                  | some n => n
                  | none => 0
              | none => 0
  let pp := match mapLookup labels "roji.path" with
            | some p => goTrimSpace p
            | none => ""
  { host := host, port := port, pathPrefix := pp }

/-- DefaultHostname from config/labels.go. -/
def DefaultHostname (serviceName baseDomain : String) : String :=
  serviceName ++ "." ++ baseDomain

/-! ## docker/client.go -/

/-- Backend from docker/client.go. -/
structure Backend where
  containerID : String
  containerName : String
  serviceName : String
  projectName : String
  host : String
  port : Int
  hostname : String
  pathPrefix : String
deriving DecidableEq, Repr

/-- The parts of a Docker container record the client reads: id, name
(Docker names start with `/`), labels, the key sequence of
`Config.ExposedPorts` and of `NetworkSettings.Ports` (iteration order of
those Go maps). -/
structure ContainerInfo where
  id : String
  name : String
  labels : List (String × String)
  exposedPorts : List String
  publishedPorts : List String
deriving DecidableEq, Repr

/-- buildProjectServiceCounts from docker/client.go: counts containers per
compose project, skipping roji itself and unlabelled containers. -/
def buildProjectServiceCounts (containers : List ContainerInfo) :
    List (String × Nat) :=
  containers.foldl
    (fun counts ctr =>
      if lookupD ctr.labels "roji.self" "" = "true" then counts
      else
        let project := lookupD ctr.labels "com.docker.compose.project" ""
        if project ≠ "" then bumpCount counts project else counts)
    []

/-- One iteration of Client.detectPort's loops: split a port spec such as
`"8080/tcp"` on `/` (`strings.Split(..., "/")[0]` is the prefix before the
first slash) and parse it as a decimal number. -/
def parsePortSpec (spec : String) : Option Int :=
  goAtoi ⟨spec.toList.takeWhile (fun c => c ≠ '/')⟩

/-- Client.detectPort from docker/client.go: the first parseable entry of
the exposed-port key list, else the first parseable entry of the published
port key list, else 0.  The protocol suffix is split off and ignored. -/
def detectPort (info : ContainerInfo) : Int :=
  match info.exposedPorts.findSome? parsePortSpec with
  | some p => p
  | none =>
    match info.publishedPorts.findSome? parsePortSpec with
    | some p => p
    | none => 0

/-- Client.detectHostname from docker/client.go. -/
def detectHostname (baseDomain : String) (info : ContainerInfo)
    (projectServiceCount : List (String × Nat)) : String :=
  let projectName := lookupD info.labels "com.docker.compose.project" ""
  let serviceName := lookupD info.labels "com.docker.compose.service" ""
  if projectName ≠ "" ∧ serviceName ≠ "" then
    let count := lookupD projectServiceCount projectName 0
    if count ≤ 1 then DefaultHostname projectName baseDomain
    else DefaultHostname (serviceName ++ "." ++ projectName) baseDomain
  else
    DefaultHostname (goTrimPrefixOf info.name "/") baseDomain

/-- Client.inspectToBackend from docker/client.go.  `ipAddress` stands for
`net.IPAddress` of the watched network endpoint.  Returns `none` when the
container is roji itself or when no port could be determined. -/
def inspectToBackend (baseDomain : String) (info : ContainerInfo)
    (ipAddress : String) (projectServiceCount : List (String × Nat)) :
    Option Backend :=
  if lookupD info.labels "roji.self" "" = "true" then none
  else
    let labelCfg := ParseLabels info.labels
    let port := if labelCfg.port = 0 then detectPort info else labelCfg.port
    if port = 0 then none
    else
      let projectName := lookupD info.labels "com.docker.compose.project" ""
      let serviceName0 := lookupD info.labels "com.docker.compose.service" ""
      let serviceName :=
        if serviceName0 = "" then goTrimPrefixOf info.name "/" else serviceName0
      let hostname :=
        if labelCfg.host = "" then
          detectHostname baseDomain info projectServiceCount
        else labelCfg.host
      some
        { containerID := info.id
          containerName := goTrimPrefixOf info.name "/"
          serviceName := serviceName
          projectName := projectName
          host := ipAddress
          port := port
          hostname := hostname
          pathPrefix := labelCfg.pathPrefix }

/-! ## proxy/handler.go: the routing table -/

/-- Route from proxy/handler.go. -/
structure Route where
  hostname : String
  pathPrefix : String
  backend : Backend
deriving DecidableEq, Repr

/-- Router from proxy/handler.go: `routes` maps a lowercase hostname to its
default route, `pathRoutes` maps a lowercase hostname to its path-prefixed
routes kept sorted by prefix length descending. -/
structure Router where
  routes : List (String × Route)
  pathRoutes : List (String × List Route)
deriving DecidableEq, Repr

/-- NewRouter from proxy/handler.go. -/
def emptyRouter : Router := { routes := [], pathRoutes := [] }

/-- Ordering used by Router.AddBackend's `sort.Slice` call: a route comes
before another when its path prefix is at least as long. -/
def routeOrder (a b : Route) : Prop :=
  b.pathPrefix.length ≤ a.pathPrefix.length

instance : DecidableRel routeOrder := fun a b =>
  inferInstanceAs (Decidable (b.pathPrefix.length ≤ a.pathPrefix.length))

instance : IsTotal Route routeOrder :=
  ⟨fun a b => Nat.le_total b.pathPrefix.length a.pathPrefix.length⟩

instance : IsTrans Route routeOrder :=
  ⟨fun _ _ _ hab hbc => Nat.le_trans hbc hab⟩

/-- Router.AddBackend from proxy/handler.go: a backend with an empty path
prefix replaces the hostname's default route; one with a path prefix is
appended to the hostname's path list, which is then re-sorted by prefix
length descending (Go uses an unstable `sort.Slice`; any sort with the same
comparison is a faithful model, since relative order of equal-length
prefixes is unspecified in the source). -/
def Router.AddBackend (r : Router) (backend : Backend) : Router :=
  let hostname := goToLower backend.hostname
  let route : Route :=
    { hostname := hostname, pathPrefix := backend.pathPrefix, backend := backend }
  if backend.pathPrefix ≠ "" then
    let newList :=
      List.insertionSort routeOrder
        ((mapLookup r.pathRoutes hostname).getD [] ++ [route])
    { r with pathRoutes := mapInsert r.pathRoutes hostname newList }
  else
    { r with routes := mapInsert r.routes hostname route }

/-- Router.RemoveBackend from proxy/handler.go: drops every route whose
backend carries the container id, deleting a hostname's path list when it
empties. -/
def Router.RemoveBackend (r : Router) (containerID : String) : Router :=
  { routes :=
      r.routes.filter (fun kv => decide (kv.2.backend.containerID ≠ containerID))
    pathRoutes :=
      (r.pathRoutes.map (fun kv =>
          (kv.1, kv.2.filter (fun rt => decide (rt.backend.containerID ≠ containerID))))).filter
        (fun kv => decide (kv.2 ≠ [])) }

/-- Router.RemoveProject from proxy/handler.go: same sweep keyed on the
backend's project name. -/
def Router.RemoveProject (r : Router) (projectName : String) : Router :=
  { routes :=
      r.routes.filter (fun kv => decide (kv.2.backend.projectName ≠ projectName))
    pathRoutes :=
      (r.pathRoutes.map (fun kv =>
          (kv.1, kv.2.filter (fun rt => decide (rt.backend.projectName ≠ projectName))))).filter
        (fun kv => decide (kv.2 ≠ [])) }

/-- Router.Lookup from proxy/handler.go: first path route of the lowercased
hostname whose prefix is a string prefix of the request path, else the
hostname's default route. -/
def Router.Lookup (r : Router) (hostname path : String) : Option Route :=
  let h := goToLower hostname
  match ((mapLookup r.pathRoutes h).getD []).find?
      (fun rt => goHasPrefix path rt.pathPrefix) with
  | some rt => some rt
  | none => mapLookup r.routes h

/-- The path-prefixed routes Lookup scans for a hostname. -/
def Router.pathList (r : Router) (hostname : String) : List Route :=
  (mapLookup r.pathRoutes (goToLower hostname)).getD []

/-- The path routes of a hostname whose prefix matches a request path. -/
def Router.matchingRoutes (r : Router) (hostname path : String) : List Route :=
  (r.pathList hostname).filter (fun rt => goHasPrefix path rt.pathPrefix)

/-- Invariant maintained by the router's mutators: every per-hostname path
list is sorted by prefix length descending. -/
def Router.SortedState (r : Router) : Prop :=
  ∀ kv ∈ r.pathRoutes, List.Sorted routeOrder kv.2

/-- All routes currently held by the table (default and path-prefixed). -/
def Router.allRoutes (r : Router) : List Route :=
  r.routes.map (fun kv => kv.2) ++ (r.pathRoutes.map (fun kv => kv.2)).flatten

/-! ## proxy/handler.go: the dispatcher's Director -/

/-- Go `req.Header.Set(k, v)` on a header map with canonical keys. -/
def headerSet (hs : List (String × String)) (k v : String) :
    List (String × String) :=
  mapInsert hs k v

/-- Go `req.Header.Get(k)`: the stored value, or `""` when absent. -/
def headerGet (hs : List (String × String)) (k : String) : String :=
  lookupD hs k ""

/-- The Director closure installed by Handler.ServeHTTP in proxy/handler.go,
applied to the outbound request (which starts as a clone of the inbound
one): strip the route's path prefix (empty result becomes `/`), then set
`X-Forwarded-Host` to the original host header, `X-Forwarded-Proto` to
`https`, `X-Forwarded-For` to the address portion of the remote address
when it is non-empty and contains a colon, and `X-Real-IP` to the current
`X-Forwarded-For` header value.  Returns the outbound path and headers. -/
def director (route : Route) (reqHost reqRemoteAddr reqPath : String)
    (reqHeaders : List (String × String)) : String × List (String × String) :=
  let outPath :=
    if route.pathPrefix ≠ "" then
      let stripped := goTrimPrefixOf reqPath route.pathPrefix
      if stripped = "" then "/" else stripped
    else reqPath
  let h1 := headerSet reqHeaders "X-Forwarded-Host" reqHost
  let h2 := headerSet h1 "X-Forwarded-Proto" "https"
  let h3 :=
    if reqRemoteAddr ≠ "" then
      match lastColonIdx reqRemoteAddr.toList with
      | some idx => headerSet h2 "X-Forwarded-For" ⟨reqRemoteAddr.toList.take idx⟩
      | none => h2
    else h2
  let h4 := headerSet h3 "X-Real-IP" (headerGet h3 "X-Forwarded-For")
  (outPath, h4)

/-! ## cmd main: handleStartEvent -/

/-- handleStartEvent from the main package, with the engine calls factored
out as inputs: `backend` is the result of `client.GetBackend` (`none` for
an error or a container off the watched network), `projectBackends` the
result of `client.GetProjectBackends` (`none` for an error).  When the
started backend carries a project name, the project's routes are removed
and re-added from the fresh listing; otherwise the backend is added
directly. -/
def handleStartEvent (router : Router) (backend : Option Backend)
    (projectBackends : Option (List Backend)) : Router :=
  match backend with
  | none => router
  | some b =>
    if b.projectName ≠ "" then
      let r1 := router.RemoveProject b.projectName
      match projectBackends with
      | none => r1
      | some bs => bs.foldl Router.AddBackend r1
    else
      router.AddBackend b

/-! ## certgen/generator.go

The crypto/x509 layer is modelled by its documented contract: a created
certificate records the template fields, the issuer (the parent's
subject), the embedded public key and the key that signed it; key pairs
are named by opaque identifiers standing for the random ECDSA keys;
PEM/DER serialisation is modelled as the identity embedding of the parsed
record, so `ParseCertificate` inverts `CreateCertificate`, and
`CheckSignatureFrom` succeeds exactly when the certificate was signed with
the private key matching the parent's public key and names the parent as
issuer. -/

/-- Subject/issuer distinguished name fields the generator sets. -/
structure X509Name where
  organization : List String
  commonName : String
deriving DecidableEq, Repr

/-- The certificate fields the generator populates and the tests inspect. -/
structure X509Certificate where
  serialNumber : Nat
  subject : X509Name
  issuer : X509Name
  isCA : Bool
  maxPathLenZero : Bool
  dnsNames : List String
  pubKey : Nat
  sigKey : Nat
deriving DecidableEq, Repr

/-- Model of `x509.Certificate.CheckSignatureFrom`. -/
def checkSignatureFrom (c parent : X509Certificate) : Prop :=
  c.sigKey = parent.pubKey ∧ c.issuer = parent.subject

instance (c parent : X509Certificate) : Decidable (checkSignatureFrom c parent) :=
  inferInstanceAs (Decidable (_ ∧ _))

/-- Content of a file in the certificate directory: a PEM/DER-encoded
certificate, a PEM-encoded private key, or arbitrary other bytes. -/
inductive FileData where
  | cert (c : X509Certificate)
  | key (k : Nat)
  | raw (s : String)
deriving DecidableEq, Repr

/-- The five files of the certificate directory (`none` = absent). -/
structure CertDir where
  caPem : Option FileData := none
  caKeyPem : Option FileData := none
  caCrt : Option FileData := none
  certPem : Option FileData := none
  keyPem : Option FileData := none
deriving DecidableEq, Repr

/-- Model of pem.Decode + x509.ParseCertificate over a directory file. -/
def parseCertFile : Option FileData → Option X509Certificate
  | some (FileData.cert c) => some c
  | _ => none

/-- Model of pem.Decode + x509.ParseECPrivateKey over a directory file. -/
def parseKeyFile : Option FileData → Option Nat
  | some (FileData.key k) => some k
  | _ => none

/-- Generator.generateCA from certgen/generator.go: a self-signed CA
certificate (IsCA, MaxPathLenZero) and its private key.  `serial` and
`caKeyId` stand for the random serial number and the fresh ECDSA key. -/
def generateCA (serial caKeyId : Nat) : X509Certificate × Nat :=
  ({ serialNumber := serial
     subject := { organization := ["roji Dev CA"], commonName := "roji CA" }
     issuer := { organization := ["roji Dev CA"], commonName := "roji CA" }
     isCA := true
     maxPathLenZero := true
     dnsNames := []
     pubKey := caKeyId
     sigKey := caKeyId },
   caKeyId)

/-- The SAN list built by Generator.generateServerCert: `*.<base>`,
`<base>`, `localhost`, plus `*.*.<base>` when the base domain is not the
literal `localhost`. -/
def serverDNSNames (base : String) : List String :=
  let names := ["*." ++ base, base, "localhost"]
  if base ≠ "localhost" then names ++ ["*.*." ++ base] else names

/-- Generator.generateServerCert from certgen/generator.go: a server
certificate over a fresh key `serverKeyId`, signed by the CA key. -/
def generateServerCert (base : String) (serial serverKeyId : Nat)
    (caCert : X509Certificate) (caKeyId : Nat) : X509Certificate :=
  { serialNumber := serial
    subject := { organization := ["roji"], commonName := "*." ++ base }
    issuer := caCert.subject
    isCA := false
    maxPathLenZero := false
    dnsNames := serverDNSNames base
    pubKey := serverKeyId
    sigKey := caKeyId }

/-- Generator.EnsureCerts from certgen/generator.go over the directory
state.  Returns the error message (or `none` for success) together with
the resulting directory.  `caSerial`, `caKeyId`, `sSerial`, `sKeyId` stand
for the random values drawn when generation happens. -/
def EnsureCerts (base : String) (caSerial caKeyId sSerial sKeyId : Nat)
    (d : CertDir) : Option String × CertDir :=
  if d.certPem.isSome && d.keyPem.isSome then (none, d)
  else if d.certPem.isSome ≠ d.keyPem.isSome then
    (some "incomplete certificate setup: only one of cert.pem/key.pem exists", d)
  else
    if d.caPem.isSome && d.caKeyPem.isSome then
      match parseCertFile d.caPem, parseKeyFile d.caKeyPem with
      | some caCert, some caKey =>
          let sc := generateServerCert base sSerial sKeyId caCert caKey
          (none, { d with certPem := some (FileData.cert sc)
                          keyPem := some (FileData.key sKeyId) })
      | _, _ => (some "failed to load existing CA", d)
    else if !d.caPem.isSome && !d.caKeyPem.isSome then
      let ca := generateCA caSerial caKeyId
      let sc := generateServerCert base sSerial sKeyId ca.1 ca.2
      (none, { d with caPem := some (FileData.cert ca.1)
                      caKeyPem := some (FileData.key ca.2)
                      caCrt := some (FileData.cert ca.1)
                      certPem := some (FileData.cert sc)
                      keyPem := some (FileData.key sKeyId) })
    else
      (some "incomplete CA setup: only one of ca.pem/ca-key.pem exists", d)

/-! ## Concrete instances used by witnesses and counterexamples -/

/-- Default-route backend of the longest-prefix scenario (service `web`). -/
def backendA : Backend :=
  { containerID := "web123", containerName := "web", serviceName := "web"
    projectName := "", host := "172.17.0.4", port := 80
    hostname := "app.localhost", pathPrefix := "" }

/-- Path route `/api` of the longest-prefix scenario. -/
def backendB : Backend :=
  { backendA with containerID := "api123", containerName := "api"
                  serviceName := "api", host := "172.17.0.2", port := 8080
                  pathPrefix := "/api" }

/-- Path route `/api/v2` of the longest-prefix scenario. -/
def backendC : Backend :=
  { backendA with containerID := "apiv2", containerName := "api-v2"
                  serviceName := "api-v2", host := "172.17.0.3", port := 8080
                  pathPrefix := "/api/v2" }

/-- A second backend claiming the same `(hostname, path_prefix)` key as
`backendB`. -/
def backendB2 : Backend :=
  { backendB with containerID := "api456", host := "172.17.0.9" }

/-- Router of the longest-prefix scenario: `A` (no path), `B` (`/api`),
`C` (`/api/v2`), all on `app.localhost`. -/
def demoRouter : Router :=
  ((emptyRouter.AddBackend backendB).AddBackend backendC).AddBackend backendA

/-- Route used when exercising the dispatcher's Director. -/
def demoRoute : Route :=
  { hostname := "app.localhost", pathPrefix := "", backend := backendA }

/-- Compose service `web` of project `p` (two-service project). -/
def infoWeb : ContainerInfo :=
  { id := "cw", name := "/p-web-1"
    labels := [("com.docker.compose.project", "p"),
               ("com.docker.compose.service", "web")]
    exposedPorts := ["80/tcp"], publishedPorts := [] }

/-- Compose service `api` of project `p` (two-service project). -/
def infoApi : ContainerInfo :=
  { id := "ca", name := "/p-api-1"
    labels := [("com.docker.compose.project", "p"),
               ("com.docker.compose.service", "api")]
    exposedPorts := ["3000/tcp"], publishedPorts := [] }

/-- Container whose image exposes only a UDP port while a TCP port is
published. -/
def infoUdp : ContainerInfo :=
  { id := "u1", name := "/udp-svc", labels := []
    exposedPorts := ["53/udp"], publishedPorts := ["80/tcp"] }

/-- A standalone (non-compose) backend: empty project name. -/
def backendSolo : Backend :=
  { containerID := "solo1", containerName := "solo", serviceName := "solo"
    projectName := "", host := "172.17.0.7", port := 3000
    hostname := "solo.localhost", pathPrefix := "" }

instance (r : Router) : Decidable r.SortedState :=
  inferInstanceAs (Decidable (∀ kv ∈ r.pathRoutes, List.Sorted routeOrder kv.2))

/-! ## Supporting lemmas -/

theorem mapLookup_mem {α : Type} :
    ∀ {m : List (String × α)} {k : String} {v : α},
      mapLookup m k = some v → (k, v) ∈ m := by
  intro m
  induction m with
  | nil => intro k v h; simp [mapLookup] at h
  | cons kv rest ih =>
    intro k v h
    obtain ⟨k', v'⟩ := kv
    by_cases hk : k' = k
    · subst hk
      simp only [mapLookup, if_pos rfl] at h
      cases h
      exact List.mem_cons_self _ _
    · simp only [mapLookup, if_neg hk] at h
      exact List.mem_cons_of_mem _ (ih h)

theorem mem_mapInsert {α : Type} :
    ∀ {m : List (String × α)} {k : String} {v : α} {kv : String × α},
      kv ∈ mapInsert m k v → kv = (k, v) ∨ kv ∈ m := by
  intro m
  induction m with
  | nil =>
    intro k v kv h
    simp only [mapInsert] at h
    exact Or.inl (List.mem_singleton.mp h)
  | cons hd rest ih =>
    intro k v kv h
    obtain ⟨k', v'⟩ := hd
    by_cases hk : k' = k
    · subst hk
      simp only [mapInsert, if_pos rfl] at h
      rcases List.mem_cons.mp h with h1 | h2
      · exact Or.inl h1
      · exact Or.inr (List.mem_cons_of_mem _ h2)
    · simp only [mapInsert, if_neg hk] at h
      rcases List.mem_cons.mp h with h1 | h2
      · exact Or.inr (h1 ▸ List.mem_cons_self _ _)
      · rcases ih h2 with h3 | h4
        · exact Or.inl h3
        · exact Or.inr (List.mem_cons_of_mem _ h4)

/-- Router.Lookup unfolded to the hostname's path list. -/
theorem lookup_eq (r : Router) (H P : String) :
    r.Lookup H P =
      match (r.pathList H).find? (fun rt => goHasPrefix P rt.pathPrefix) with
      | some rt => some rt
      | none => mapLookup r.routes (goToLower H) := rfl

/-- In a list sorted by prefix length descending, the first element
satisfying a predicate has maximal prefix length among all elements
satisfying it. -/
theorem find?_is_max_of_sorted (p : Route → Bool) :
    ∀ (l : List Route), List.Sorted routeOrder l → ∀ {rt : Route},
      l.find? p = some rt →
      ∀ rt' ∈ l, p rt' = true →
        rt'.pathPrefix.length ≤ rt.pathPrefix.length := by
  intro l
  induction l with
  | nil => intro _ rt h; simp at h
  | cons a t ih =>
    intro hs rt hfind rt' hmem hp
    rw [List.sorted_cons] at hs
    obtain ⟨ha, ht⟩ := hs
    by_cases hpa : p a = true
    · rw [List.find?_cons_of_pos _ hpa] at hfind
      cases hfind
      rcases List.mem_cons.mp hmem with rfl | hmem'
      · exact Nat.le_refl _
      · exact ha rt' hmem'
    · rw [List.find?_cons_of_neg _ hpa] at hfind
      rcases List.mem_cons.mp hmem with rfl | hmem'
      · exact absurd hp hpa
      · exact ih ht hfind rt' hmem' hp

theorem sortedState_empty : emptyRouter.SortedState := by
  intro kv h
  simp [emptyRouter] at h

/-- AddBackend keeps every per-hostname path list sorted by prefix length
descending: the touched list is rebuilt by a sort, the others are
untouched. -/
theorem sortedState_addBackend (r : Router) (b : Backend)
    (hs : r.SortedState) : (r.AddBackend b).SortedState := by
  intro kv hkv
  unfold Router.AddBackend at hkv
  by_cases hp : b.pathPrefix ≠ ""
  · rw [if_pos hp] at hkv
    simp only at hkv
    rcases mem_mapInsert hkv with h1 | h2
    · subst h1
      exact List.sorted_insertionSort routeOrder _
    · exact hs kv h2
  · rw [if_neg hp] at hkv
    exact hs kv hkv

/-- RemoveBackend keeps every path list sorted (each is a filter of a
sorted list). -/
theorem sortedState_removeBackend (r : Router) (cid : String)
    (hs : r.SortedState) : (r.RemoveBackend cid).SortedState := by
  intro kv hkv
  unfold Router.RemoveBackend at hkv
  simp only at hkv
  have hkv2 := (List.mem_filter.mp hkv).1
  obtain ⟨kv0, hkv0, heq⟩ := List.mem_map.mp hkv2
  have h2 : kv.2 = kv0.2.filter (fun rt => decide (rt.backend.containerID ≠ cid)) := by
    rw [← heq]
  rw [h2]
  exact List.Pairwise.sublist (List.filter_sublist _) (hs kv0 hkv0)

/-- RemoveProject keeps every path list sorted. -/
theorem sortedState_removeProject (r : Router) (p : String)
    (hs : r.SortedState) : (r.RemoveProject p).SortedState := by
  intro kv hkv
  unfold Router.RemoveProject at hkv
  simp only at hkv
  have hkv2 := (List.mem_filter.mp hkv).1
  obtain ⟨kv0, hkv0, heq⟩ := List.mem_map.mp hkv2
  have h2 : kv.2 = kv0.2.filter (fun rt => decide (rt.backend.projectName ≠ p)) := by
    rw [← heq]
  rw [h2]
  exact List.Pairwise.sublist (List.filter_sublist _) (hs kv0 hkv0)

/-! ## Claim theorems -/

/-- C1: the claim says ParseLabels canonicalises the `roji.path` value
(`..` anywhere yields the empty prefix, a trailing slash is stripped
unless the result is `/`, an empty value yields `/`).  The code only trims
whitespace: a traversal value survives verbatim, a trailing slash is kept,
and an empty value stays empty — contradicting the repository's own
TestParseLabels_PathTraversal expectations. -/
theorem C1_parseLabels_does_not_canonicalise :
    (ParseLabels [("roji.path", "/api/../secret")]).pathPrefix =
        "/api/../secret" ∧
    (ParseLabels [("roji.path", "/api/")]).pathPrefix = "/api/" ∧
    (ParseLabels [("roji.path", "")]).pathPrefix = "" :=
  ⟨rfl, rfl, rfl⟩

/-- C2: the claim says the dispatcher strips every client-supplied
`X-Forwarded-*` and `X-Real-IP` header before setting its own.  The
Director never strips: a client-supplied `X-Forwarded-Port` header is
forwarded upstream untouched (only `X-Forwarded-Host`, `X-Forwarded-Proto`,
`X-Forwarded-For` and `X-Real-IP` happen to be overwritten here). -/
theorem C2_director_forwards_client_header :
    headerGet (director demoRoute "app.localhost" "203.0.113.7:51234" "/x"
        [("X-Forwarded-Port", "9999"), ("X-Real-IP", "1.2.3.4")]).2
      "X-Forwarded-Port" = "9999" ∧
    headerGet (director demoRoute "app.localhost" "203.0.113.7:51234" "/x"
        [("X-Forwarded-Port", "9999"), ("X-Real-IP", "1.2.3.4")]).2
      "X-Forwarded-For" = "203.0.113.7" ∧
    headerGet (director demoRoute "app.localhost" "203.0.113.7:51234" "/x"
        [("X-Forwarded-Port", "9999"), ("X-Real-IP", "1.2.3.4")]).2
      "X-Real-IP" = "203.0.113.7" :=
  ⟨rfl, rfl, rfl⟩

/-- C3: the claim says an insert with an existing `(hostname, path_prefix)`
key replaces the earlier route and that re-adding is idempotent, for empty
and non-empty prefixes alike.  For a non-empty prefix AddBackend appends
without replacing: after add(b1); add(b2) with the identical key
`("app.localhost", "/api")` the table holds two routes for that key, and
even adding the same backend twice leaves two copies. -/
theorem C3_addBackend_duplicates_path_key :
    (((mapLookup ((emptyRouter.AddBackend backendB).AddBackend
          backendB2).pathRoutes "app.localhost").getD []).filter
        (fun rt => decide (rt.pathPrefix = "/api"))).length = 2 ∧
    (((mapLookup ((emptyRouter.AddBackend backendB).AddBackend
          backendB).pathRoutes "app.localhost").getD []).filter
        (fun rt => decide (rt.pathPrefix = "/api"))).length = 2 := by
  decide

/-- C9: after RemoveBackend, no Lookup — through the path-prefixed index or
the default-route index — returns a route whose backend carries the removed
container id. -/
theorem C9_removeBackend_purges_container (r : Router)
    (cid H P : String) (rt : Route)
    (h : (r.RemoveBackend cid).Lookup H P = some rt) :
    rt.backend.containerID ≠ cid := by
  rw [lookup_eq] at h
  cases hfind : ((r.RemoveBackend cid).pathList H).find?
      (fun rt => goHasPrefix P rt.pathPrefix) with
  | some rt0 =>
    rw [hfind] at h
    injection h with hEq
    subst hEq
    have hmem : rt0 ∈ (r.RemoveBackend cid).pathList H :=
      List.mem_of_find?_eq_some hfind
    unfold Router.pathList at hmem
    cases hml : mapLookup (r.RemoveBackend cid).pathRoutes (goToLower H) with
    | none => rw [hml] at hmem; simp at hmem
    | some l =>
      rw [hml] at hmem
      simp only [Option.getD_some] at hmem
      have hkv := mapLookup_mem hml
      unfold Router.RemoveBackend at hkv
      simp only at hkv
      have hkv2 := (List.mem_filter.mp hkv).1
      obtain ⟨kv0, _, heq⟩ := List.mem_map.mp hkv2
      have h2 : l = kv0.2.filter (fun x => decide (x.backend.containerID ≠ cid)) := by
        have := congrArg Prod.snd heq
        simpa using this.symm
      rw [h2] at hmem
      have := (List.mem_filter.mp hmem).2
      simpa using this
  | none =>
    rw [hfind] at h
    have hmem := mapLookup_mem h
    unfold Router.RemoveBackend at hmem
    simp only at hmem
    have := (List.mem_filter.mp hmem).2
    simpa using this

/-- C9 witness: removing container `apiv2` from the demo table leaves the
`/api` route, whose backend is not the removed container. -/
theorem C9_removeBackend_purges_container_witness :
    (demoRouter.RemoveBackend "apiv2").Lookup "app.localhost" "/api/v2/users" =
      some { hostname := "app.localhost", pathPrefix := "/api"
             backend := backendB } ∧
    ({ hostname := "app.localhost", pathPrefix := "/api"
       backend := backendB } : Route).backend.containerID ≠ "apiv2" :=
  ⟨by decide,
   C9_removeBackend_purges_container demoRouter "apiv2" "app.localhost"
     "/api/v2/users" _ (by decide)⟩

/-- C10: RemoveProject with the empty string removes every route whose
backend has an empty project name (all standalone containers), and
handleStartEvent triggers the project refresh only when the started
backend's project name is non-empty — a standalone start is a plain add. -/
theorem C10_removeProject_empty_hits_standalone :
    (∀ r : Router, ∀ rt ∈ (r.RemoveProject "").allRoutes,
        rt.backend.projectName ≠ "") ∧
    (∀ (r : Router) (b : Backend) (pbs : Option (List Backend)),
        b.projectName = "" →
        handleStartEvent r (some b) pbs = r.AddBackend b) := by
  constructor
  · intro r rt hmem
    unfold Router.allRoutes Router.RemoveProject at hmem
    simp only at hmem
    rcases List.mem_append.mp hmem with hL | hR
    · obtain ⟨kv, hkv, heq⟩ := List.mem_map.mp hL
      have := (List.mem_filter.mp hkv).2
      rw [← heq]
      simpa using this
    · obtain ⟨l, hl, hrt⟩ := List.mem_flatten.mp hR
      obtain ⟨kv, hkv, heql⟩ := List.mem_map.mp hl
      rw [← heql] at hrt
      have hkv2 := (List.mem_filter.mp hkv).1
      obtain ⟨kv0, _, heq⟩ := List.mem_map.mp hkv2
      have h2 : kv.2 = kv0.2.filter (fun x => decide (x.backend.projectName ≠ "")) := by
        have := congrArg Prod.snd heq
        simpa using this.symm
      rw [h2] at hrt
      have := (List.mem_filter.mp hrt).2
      simpa using this
  · intro r b pbs hb
    unfold handleStartEvent
    simp [hb]

/-- C10 witness: on a table holding only the standalone backend,
RemoveProject of the empty string empties the table, and a start event for
that backend is handled as a plain add. -/
theorem C10_removeProject_empty_hits_standalone_witness :
    ((emptyRouter.AddBackend backendSolo).RemoveProject "").allRoutes = [] ∧
    (∀ rt ∈ ((emptyRouter.AddBackend backendSolo).RemoveProject "").allRoutes,
        rt.backend.projectName ≠ "") ∧
    handleStartEvent (emptyRouter.AddBackend backendSolo) (some backendSolo)
        none = (emptyRouter.AddBackend backendSolo).AddBackend backendSolo :=
  ⟨by decide,
   fun rt hrt => C10_removeProject_empty_hits_standalone.1
     (emptyRouter.AddBackend backendSolo) rt hrt,
   C10_removeProject_empty_hits_standalone.2
     (emptyRouter.AddBackend backendSolo) backendSolo none rfl⟩

/-- C4: on a table whose per-hostname path lists are sorted by prefix
length descending (the invariant every mutator maintains — see
sortedState_empty, sortedState_addBackend, sortedState_removeBackend,
sortedState_removeProject), Lookup returns a matching path route of
maximal prefix length among those whose prefix is a string prefix of the
request path; when no path route matches it returns the hostname's
default route — which is `none` when the hostname has none. -/
theorem C4_lookup_longest_match (r : Router) (H P : String)
    (hs : r.SortedState) :
    (r.matchingRoutes H P = [] →
        r.Lookup H P = mapLookup r.routes (goToLower H)) ∧
    (r.matchingRoutes H P ≠ [] →
        ∃ rt, r.Lookup H P = some rt ∧ rt ∈ r.matchingRoutes H P ∧
          ∀ rt' ∈ r.matchingRoutes H P,
            rt'.pathPrefix.length ≤ rt.pathPrefix.length) := by
  have hsorted : List.Sorted routeOrder (r.pathList H) := by
    unfold Router.pathList
    cases hml : mapLookup r.pathRoutes (goToLower H) with
    | none => simp
    | some l =>
      simpa using hs _ (mapLookup_mem hml)
  cases hfind : (r.pathList H).find? (fun rt => goHasPrefix P rt.pathPrefix) with
  | none =>
    have hmatch : r.matchingRoutes H P = [] := by
      unfold Router.matchingRoutes
      refine List.filter_eq_nil_iff.mpr ?_
      intro a ha
      simpa using List.find?_eq_none.mp hfind a ha
    constructor
    · intro _
      rw [lookup_eq, hfind]
    · intro hne
      exact absurd hmatch hne
  | some rt =>
    have hpred : goHasPrefix P rt.pathPrefix = true :=
      List.find?_some (p := fun x : Route => goHasPrefix P x.pathPrefix) hfind
    have hmem : rt ∈ r.pathList H := List.mem_of_find?_eq_some hfind
    have hmemMatch : rt ∈ r.matchingRoutes H P :=
      List.mem_filter.mpr ⟨hmem, hpred⟩
    constructor
    · intro hempty
      rw [hempty] at hmemMatch
      cases hmemMatch
    · intro _
      refine ⟨rt, ?_, hmemMatch, ?_⟩
      · rw [lookup_eq, hfind]
      · intro rt' hrt'
        have hsp := List.mem_filter.mp hrt'
        exact find?_is_max_of_sorted _ _ hsorted hfind rt' hsp.1 hsp.2

/-- C4 witness: the longest-prefix scenario of the spec — backends `A`
(no path), `B` (`/api`), `C` (`/api/v2`) on `app.localhost`; for the path
`/api/v2/users` Lookup returns a matching route of maximal prefix length
(route `C`). -/
theorem C4_lookup_longest_match_witness :
    demoRouter.SortedState ∧
    (demoRouter.matchingRoutes "app.localhost" "/api/v2/users" ≠ [] →
        ∃ rt, demoRouter.Lookup "app.localhost" "/api/v2/users" = some rt ∧
          rt ∈ demoRouter.matchingRoutes "app.localhost" "/api/v2/users" ∧
          ∀ rt' ∈ demoRouter.matchingRoutes "app.localhost" "/api/v2/users",
            rt'.pathPrefix.length ≤ rt.pathPrefix.length) :=
  ⟨by decide,
   (C4_lookup_longest_match demoRouter "app.localhost" "/api/v2/users"
     (by decide)).2⟩

/-- C5: for a discovered container (one that inspectToBackend turns into a
backend) with no `roji.host` override, carrying both compose labels: a
service count of exactly 1 for its project yields `<project>.<base>`, a
count of 2 or more yields `<service>.<project>.<base>`; lacking either
label yields `<container_name>.<base>` (the name with its leading slash
trimmed).  The count is the one computed by buildProjectServiceCounts over
the discovery pass's container list. -/
theorem C5_hostname_resolution (base ip : String) (cs : List ContainerInfo)
    (info : ContainerInfo) (b : Backend)
    (hb : inspectToBackend base info ip (buildProjectServiceCounts cs) = some b)
    (hhost : (ParseLabels info.labels).host = "") :
    (lookupD info.labels "com.docker.compose.project" "" ≠ "" →
     lookupD info.labels "com.docker.compose.service" "" ≠ "" →
     lookupD (buildProjectServiceCounts cs)
         (lookupD info.labels "com.docker.compose.project" "") 0 = 1 →
     b.hostname =
       lookupD info.labels "com.docker.compose.project" "" ++ "." ++ base) ∧
    (lookupD info.labels "com.docker.compose.project" "" ≠ "" →
     lookupD info.labels "com.docker.compose.service" "" ≠ "" →
     2 ≤ lookupD (buildProjectServiceCounts cs)
         (lookupD info.labels "com.docker.compose.project" "") 0 →
     b.hostname =
       lookupD info.labels "com.docker.compose.service" "" ++ "." ++
         lookupD info.labels "com.docker.compose.project" "" ++ "." ++ base) ∧
    ((lookupD info.labels "com.docker.compose.project" "" = "" ∨
      lookupD info.labels "com.docker.compose.service" "" = "") →
     b.hostname = goTrimPrefixOf info.name "/" ++ "." ++ base) := by
  have hhn : b.hostname =
      detectHostname base info (buildProjectServiceCounts cs) := by
    by_cases hself : lookupD info.labels "roji.self" "" = "true"
    · simp [inspectToBackend, hself] at hb
    · by_cases hport : (if (ParseLabels info.labels).port = 0 then
          detectPort info else (ParseLabels info.labels).port) = 0
      · simp only [inspectToBackend, if_neg hself, if_pos hport] at hb
        cases hb
      · simp only [inspectToBackend, if_neg hself, if_neg hport, hhost,
          if_pos rfl, Option.some.injEq] at hb
        rw [← hb]
        simp
  refine ⟨?_, ?_, ?_⟩
  · intro hP hS hcount
    rw [hhn]
    unfold detectHostname
    rw [if_pos ⟨hP, hS⟩, hcount, if_pos (by omega)]
    rfl
  · intro hP hS hcount
    rw [hhn]
    unfold detectHostname
    rw [if_pos ⟨hP, hS⟩, if_neg (by omega)]
    simp [DefaultHostname, String.append_assoc]
  · intro hPS
    rw [hhn]
    unfold detectHostname
    rw [if_neg (by
      rcases hPS with h | h
      · exact fun hc => hc.1 h
      · exact fun hc => hc.2 h)]
    rfl

/-- C5 witness: the two-service project `p` (services `web`, `api`) gives
the `web` container the hostname `web.p.localhost`. -/
theorem C5_hostname_resolution_witness :
    inspectToBackend "localhost" infoWeb "10.0.0.5"
        (buildProjectServiceCounts [infoWeb, infoApi]) =
      some { containerID := "cw", containerName := "p-web-1"
             serviceName := "web", projectName := "p", host := "10.0.0.5"
             port := 80, hostname := "web.p.localhost", pathPrefix := "" } ∧
    ({ containerID := "cw", containerName := "p-web-1", serviceName := "web"
       projectName := "p", host := "10.0.0.5", port := 80
       hostname := "web.p.localhost", pathPrefix := "" } : Backend).hostname =
      "web.p.localhost" :=
  ⟨rfl,
   (C5_hostname_resolution "localhost" "10.0.0.5" [infoWeb, infoApi] infoWeb _
       rfl rfl).2.1 (by decide) (by decide) (by decide)⟩

/-- C7: when cert.pem and key.pem are both present EnsureCerts succeeds and
leaves the directory exactly as it was (no CA file is created); when
exactly one of the two is present it fails with an error and the directory
is unchanged. -/
theorem C7_ensureCerts_adoption_and_failure (base : String)
    (caS caK sS sK : Nat) (d : CertDir) :
    (d.certPem.isSome = true → d.keyPem.isSome = true →
        EnsureCerts base caS caK sS sK d = (none, d)) ∧
    (d.certPem.isSome ≠ d.keyPem.isSome →
        (EnsureCerts base caS caK sS sK d).2 = d ∧
        ∃ e, (EnsureCerts base caS caK sS sK d).1 = some e) := by
  constructor
  · intro h1 h2
    unfold EnsureCerts
    rw [h1, h2]
    simp
  · intro hne
    have hand : (d.certPem.isSome && d.keyPem.isSome) = false := by
      cases hc : d.certPem.isSome <;> cases hk : d.keyPem.isSome <;>
        simp_all
    unfold EnsureCerts
    rw [hand]
    simp [hne]

/-- C7 witness: a directory with both server files is adopted untouched;
one with only cert.pem errors out without modification. -/
theorem C7_ensureCerts_adoption_and_failure_witness :
    EnsureCerts "localhost" 1 2 3 4
        { certPem := some (FileData.raw "x"), keyPem := some (FileData.raw "y") } =
      (none, { certPem := some (FileData.raw "x")
               keyPem := some (FileData.raw "y") }) ∧
    ((EnsureCerts "localhost" 1 2 3 4
        { certPem := some (FileData.raw "x") }).2 =
      { certPem := some (FileData.raw "x") } ∧
      ∃ e, (EnsureCerts "localhost" 1 2 3 4
        { certPem := some (FileData.raw "x") }).1 = some e) :=
  ⟨(C7_ensureCerts_adoption_and_failure "localhost" 1 2 3 4
      { certPem := some (FileData.raw "x")
        keyPem := some (FileData.raw "y") }).1 rfl rfl,
   (C7_ensureCerts_adoption_and_failure "localhost" 1 2 3 4
      { certPem := some (FileData.raw "x") }).2 (by decide)⟩

/-- C6: generating certificates from an empty directory succeeds, the
persisted server certificate parses back to the generated one, it verifies
as signed by the generated CA, and its DNS SAN set is exactly
`*.<base>`, `<base>`, `localhost`, plus `*.*.<base>` exactly when the base
domain is not the literal `localhost`. -/
theorem C6_server_cert_signed_with_exact_sans (base : String)
    (caS caK sS sK : Nat) :
    (EnsureCerts base caS caK sS sK {}).1 = none ∧
    parseCertFile (EnsureCerts base caS caK sS sK {}).2.certPem =
      some (generateServerCert base sS sK (generateCA caS caK).1 caK) ∧
    checkSignatureFrom (generateServerCert base sS sK (generateCA caS caK).1 caK)
      (generateCA caS caK).1 ∧
    (∀ dn,
      dn ∈ (generateServerCert base sS sK (generateCA caS caK).1 caK).dnsNames ↔
        (dn = "*." ++ base ∨ dn = base ∨ dn = "localhost" ∨
          (base ≠ "localhost" ∧ dn = "*.*." ++ base))) := by
  refine ⟨rfl, rfl, ⟨rfl, rfl⟩, ?_⟩
  intro dn
  by_cases hb : base = "localhost"
  · subst hb
    simp [generateServerCert, serverDNSNames]
  · simp [generateServerCert, serverDNSNames, hb]

/-- C6 witness: base domain `dev.localhost` — all four SANs are present
and nothing else is. -/
theorem C6_server_cert_signed_with_exact_sans_witness :
    (EnsureCerts "dev.localhost" 1 2 3 4 {}).1 = none ∧
    ("*.dev.localhost" ∈
      (generateServerCert "dev.localhost" 3 4 (generateCA 1 2).1 2).dnsNames ↔
      ("*.dev.localhost" = "*." ++ "dev.localhost" ∨
       "*.dev.localhost" = "dev.localhost" ∨
       "*.dev.localhost" = "localhost" ∨
       ("dev.localhost" ≠ "localhost" ∧
        "*.dev.localhost" = "*.*." ++ "dev.localhost"))) :=
  ⟨(C6_server_cert_signed_with_exact_sans "dev.localhost" 1 2 3 4).1,
   (C6_server_cert_signed_with_exact_sans "dev.localhost" 1 2 3 4).2.2.2
     "*.dev.localhost"⟩

/-- C8 counterexample: the claim restricts the exposed-port fallback to TCP
ports, but detectPort ignores the protocol suffix.  For a container whose
image exposes only `53/udp` while `80/tcp` is published, the claim predicts
port 80 (no TCP exposed port, so the published list decides); the code
emits a backend with port 53. -/
theorem C8_counterexample_udp_port_selected :
    (inspectToBackend "localhost" infoUdp "10.0.0.9" []).map Backend.port =
      some 53 ∧
    (inspectToBackend "localhost" infoUdp "10.0.0.9" []).map Backend.port ≠
      some 80 :=
  ⟨rfl, by decide⟩

/-- C8 (amended): the backend port is the `roji.port` label value when it
parses as a nonzero decimal integer; otherwise the first
numerically-parseable port of the image's exposed-port list regardless of
protocol; otherwise the first parseable port of the published-port list;
and when the selected port is 0 (no port found) the container is skipped
and no backend is emitted. -/
theorem C8_port_selection_order (base ip : String)
    (m : List (String × Nat)) (info : ContainerInfo) :
    (∀ b, inspectToBackend base info ip m = some b →
        b.port = (if (ParseLabels info.labels).port = 0 then detectPort info
                  else (ParseLabels info.labels).port)) ∧
    ((if (ParseLabels info.labels).port = 0 then detectPort info
      else (ParseLabels info.labels).port) = 0 →
        inspectToBackend base info ip m = none) ∧
    detectPort info =
      (match info.exposedPorts.findSome? parsePortSpec with
       | some p => p
       | none =>
         match info.publishedPorts.findSome? parsePortSpec with
         | some p => p
         | none => 0) := by
  refine ⟨?_, ?_, rfl⟩
  · intro b hb
    by_cases hself : lookupD info.labels "roji.self" "" = "true"
    · simp [inspectToBackend, hself] at hb
    · by_cases hport : (if (ParseLabels info.labels).port = 0 then
          detectPort info else (ParseLabels info.labels).port) = 0
      · simp only [inspectToBackend, if_neg hself, if_pos hport] at hb
        cases hb
      · simp only [inspectToBackend, if_neg hself, if_neg hport,
          Option.some.injEq] at hb
        rw [← hb]
  · intro hz
    by_cases hself : lookupD info.labels "roji.self" "" = "true"
    · simp [inspectToBackend, hself]
    · simp only [inspectToBackend, if_neg hself, if_pos hz]

/-- C8 witness: `infoWeb` (exposes `80/tcp`, no label, nothing published)
gets port 80 through the exposed-port fallback, and a container with no
parseable port anywhere is skipped. -/
theorem C8_port_selection_order_witness :
    (inspectToBackend "localhost" infoWeb "10.0.0.5" [] =
      some { containerID := "cw", containerName := "p-web-1"
             serviceName := "web", projectName := "p", host := "10.0.0.5"
             port := 80, hostname := "p.localhost", pathPrefix := "" }) ∧
    ({ containerID := "cw", containerName := "p-web-1", serviceName := "web"
       projectName := "p", host := "10.0.0.5", port := 80
       hostname := "p.localhost", pathPrefix := "" } : Backend).port =
      (if (ParseLabels infoWeb.labels).port = 0 then detectPort infoWeb
       else (ParseLabels infoWeb.labels).port) ∧
    inspectToBackend "localhost"
        { id := "np", name := "/no-port", labels := []
          exposedPorts := [], publishedPorts := [] } "10.0.0.6" [] = none :=
  ⟨rfl,
   (C8_port_selection_order "localhost" "10.0.0.5" [] infoWeb).1 _ rfl,
   (C8_port_selection_order "localhost" "10.0.0.6" []
      { id := "np", name := "/no-port", labels := []
        exposedPorts := [], publishedPorts := [] }).2.1 rfl⟩

end Roji
